import Mathlib

/-!
Shallow embedding of the QtHEP helper library (Python sources) in Lean 4,
with theorems settling the specification claims about it.

Conventions used throughout:
* Python strings are modelled as Lean `String` (reasoning happens on `.data`,
  the underlying `List Char`).
* Python exceptions are modelled with `Option`/explicit outcome fields.
* Machine integers do not occur: all Python ints here are unbounded, exactly
  like Lean `Nat`/`Int`.
-/

namespace QtHEP

/-! ## PyHelpers.py -/

/-- Embedding of the module constant `BAD_FILENAME_CHARACTERS` from
PyHelpers.py line 28: the fixed denylist of characters removed from
file names. -/
def BAD_FILENAME_CHARACTERS : String := "|^?*<>[]=+\"\\/,:;"

/-- Embedding of Python `str.strip()`: remove leading and trailing
whitespace characters. -/
def pyStrip (s : String) : String :=
  String.mk (((s.data.dropWhile Char.isWhitespace).reverse.dropWhile
    Char.isWhitespace).reverse)

/-- Embedding of `PyHelpers.NormalizeFileName` (PyHelpers.py lines 39-51).
The call `unicodedata.normalize('NFKD', ...)` depends on the external Unicode
tables, so the NFKD normalization is taken as an explicit function parameter
`nfkd`; every theorem about `NormalizeFileName` quantifies over it (NFKD is the
identity on the ASCII denylist characters, and the commented-out
`.encode('ASCII', 'ignore')` in the source means combining marks are *not*
stripped).  The `''.join(c for c in cleanFilename if c not in
BAD_FILENAME_CHARACTERS)` generator join is embedded as a left fold pushing the
kept characters. -/
def NormalizeFileName (nfkd : String → String) (filename : String) : String :=
  let cleanFilename := nfkd (pyStrip filename)
  cleanFilename.data.foldl
    (fun acc c => if BAD_FILENAME_CHARACTERS.data.contains c then acc else acc.push c) ""

/-- Embedding of the Python format `'%02d' % n` for a non-negative `n`:
decimal digits, left padded with zeros to a minimum width of two. -/
def pyPad2 (n : Nat) : String :=
  if n < 10 then "0" ++ toString n else toString n

/-- Python `datetime.timedelta`, restricted to non-negative whole-second
values (the normalized representation: `0 ≤ seconds < 86400`; the
`microseconds` component is zero).  This is the domain the duration-formatting
claim is about. -/
structure PyTimedelta where
  days : Nat
  seconds : Nat

/-- The `H:MM:SS` part of Python `str(datetime.timedelta)` (the hours field
unpadded, minutes and seconds `'%02d'`-padded). -/
def pyTdBase (seconds : Nat) : String :=
  toString (seconds / 3600) ++ ":" ++ pyPad2 (seconds % 3600 / 60) ++ ":"
    ++ pyPad2 (seconds % 60)

/-- Embedding of Python `str(td)` for a `datetime.timedelta` in the domain of
`PyTimedelta`: `H:MM:SS` with the hours field unpadded, prefixed by
`D day, ` / `D days, ` (note the singular form when `days == 1`) when the days
component is non-zero. -/
def pyStrTimedelta (td : PyTimedelta) : String :=
  if td.days = 0 then pyTdBase td.seconds
  else if td.days = 1 then toString td.days ++ " day, " ++ pyTdBase td.seconds
  else toString td.days ++ " days, " ++ pyTdBase td.seconds

/-- Fuel-indexed worker for `pyReplace`; the fuel is the length of the subject
string, which bounds the number of recursion steps. -/
def pyReplaceAux : Nat → List Char → List Char → List Char → List Char
  | 0, s, _, _ => s
  | _ + 1, [], _, _ => []
  | fuel + 1, c :: rest, pat, rep =>
    if pat ≠ [] ∧ List.isPrefixOf pat (c :: rest) then
      rep ++ pyReplaceAux fuel (List.drop pat.length (c :: rest)) pat rep
    else
      c :: pyReplaceAux fuel rest pat rep

/-- Embedding of Python `s.replace(pat, rep)` for a non-empty pattern:
replace every (leftmost, non-overlapping) occurrence. -/
def pyReplace (s pat rep : String) : String :=
  String.mk (pyReplaceAux s.data.length s.data pat.data rep.data)

/-- Decimal value of a list of digit characters (most significant first). -/
def pyDigitsToNat (s : List Char) : Nat :=
  s.foldl (fun a c => a * 10 + (c.toNat - 48)) 0

/-- Embedding of Python `int(float(x))` for the strings that arise as
colon-separated fields of `str(timedelta)` on whole-second values: a non-empty
all-digit string parses to its decimal value, anything else (for instance the
field `"1 day, 2"` that arises for one-day durations, which contains spaces and
letters) raises `ValueError`, modelled as `none`. -/
def pyIntOfFloat (s : List Char) : Option Nat :=
  if s ≠ [] ∧ s.all Char.isDigit then some (pyDigitsToNat s) else none

/-- Embedding of the `out` variable computed by the first branch of
`PyHelpers.TimedeltaToString` (PyHelpers.py lines 122-128): days are folded
into the colon-separated form by `str(td).replace(' days, ', ':')` — note the
plural-only pattern — and a `0:` day field is prefixed when requested. -/
def timedeltaOut (td : PyTimedelta) (noZeroDays : Bool) : String :=
  if td.days > 0 then
    pyReplace (pyStrTimedelta td) " days, " ":"
  else
    if noZeroDays then pyStrTimedelta td
    else "0:" ++ pyStrTimedelta td

/-- Embedding of `PyHelpers.TimedeltaToString` (PyHelpers.py lines 119-134):
split `out` on colons, convert each field with `int(float(x))`, format each
with `'%02d'`, and re-join with colons.  The result is `none` when the
Python code would raise (the `int(float(x))` conversion fails on a
field). -/
def TimedeltaToString (td : PyTimedelta) (noZeroDays : Bool) : Option String :=
  match ((timedeltaOut td noZeroDays).data.splitOn ':').mapM pyIntOfFloat with
  | none => none
  | some ns => some (String.intercalate ":" (ns.map pyPad2))

/-! ## PyQt5OrderedEditableList.py -/

/-- Observable state of the `QListWidget` managed by `QOrderedEditableList`:
the item sequence (items abstracted to a type `α` carrying text plus any
`Qt.UserRole` data) and the current row (`-1` when nothing is selected, as in
Qt). -/
structure ListWidgetState (α : Type) where
  items : List α
  currentRow : Int
  deriving DecidableEq

/-- Enabled-state of the six selection-dependent buttons wired by
`QOrderedEditableList` (the new-item button is always enabled and not
recomputed by `enableButtons`). -/
structure ListButtons where
  copyItemEnabled : Bool
  deleteItemEnabled : Bool
  itemTopEnabled : Bool
  itemUpEnabled : Bool
  itemDownEnabled : Bool
  itemBottomEnabled : Bool
  deriving DecidableEq, Repr

/-- Embedding of `QOrderedEditableList.enableButtons`
(PyQt5OrderedEditableList.py lines 95-120), as a function of the observable
widget state it reads: `count = listWidget.count()` and
`currentRow = listWidget.currentRow()`. -/
def enableButtons (count : Nat) (currentRow : Int) : ListButtons :=
  if count = 0 ∨ currentRow < 0 then
    ⟨false, false, false, false, false, false⟩
  else
    { copyItemEnabled := true
      deleteItemEnabled := decide (1 < count)
      itemTopEnabled := decide (0 < currentRow)
      itemUpEnabled := decide (0 < currentRow)
      itemDownEnabled := decide (currentRow + 1 < (count : Int))
      itemBottomEnabled := decide (currentRow + 1 < (count : Int)) }

/-- Python exceptions that the embedded methods can raise. -/
inductive PyExn
  | nameError
  | attributeError
  deriving DecidableEq, Repr

/-- Embedding of `QListWidget.takeItem(row)`: remove and return the item at
`row`; an out-of-range row is a no-op returning nothing. -/
def pyTakeItem {α : Type} (items : List α) (row : Int) : List α :=
  if 0 ≤ row ∧ row < (items.length : Int) then items.eraseIdx row.toNat else items

/-- Outcome of one invocation of `QOrderedEditableList.__itemDelete`: the
resulting widget state, whether the `listChanged` signal was emitted, whether
a `QMessageBox` modal error dialog was actually shown, and the exception
raised (if any). -/
structure DeleteOutcome (α : Type) where
  state : ListWidgetState α
  emittedListChanged : Bool
  messageShown : Bool
  exn : Option PyExn
  deriving DecidableEq

/-- Embedding of `QOrderedEditableList.__itemDelete`
(PyQt5OrderedEditableList.py lines 144-170).

On the `count() == 1` branch the source executes
`QMessageBox.critical(self.__parent, 'List Error', ...)`, but the module only
imports `QListWidgetItem` from PyQt5.QtWidgets — the name `QMessageBox` is
undefined in PyQt5OrderedEditableList.py, so the call raises `NameError`
before any dialog can be shown; the method then exits with the list and the
selection untouched and without emitting `listChanged`.

On the other branch: `takeItem(row)` removes the selected row, the row to
re-select is adjusted exactly as in the source, and `item(row).setSelected` /
`setCurrentItem(item)` make it current (when the adjusted row is invalid —
only reachable from states where the button would have been disabled — the
`None.setSelected(True)` call raises `AttributeError`).  The
`closePersistentEditor` calls only affect the transient editor widget and have
no effect on the state modelled here. -/
def itemDelete {α : Type} (s : ListWidgetState α) : DeleteOutcome α :=
  if s.items.length = 1 then
    { state := s, emittedListChanged := false, messageShown := false,
      exn := some PyExn.nameError }
  else
    let row := s.currentRow
    let items := pyTakeItem s.items row
    let count : Int := items.length
    let row := if count = 1 then 0 else if row = count then row - 1 else row
    if 0 ≤ row ∧ row < count then
      { state := ⟨items, row⟩, emittedListChanged := true, messageShown := false,
        exn := none }
    else
      { state := ⟨items, s.currentRow⟩, emittedListChanged := false,
        messageShown := false, exn := some PyExn.attributeError }

/-! ## PyQt5RecentFiles.py -/

/-- Embedding of the class constant `QRecentFiles.MAX_RECENT_FILES`
(PyQt5RecentFiles.py line 39). -/
def MAX_RECENT_FILES : Nat := 10

/-- Embedding of `QRecentFiles.strippedName` /
`QFileInfo(fullFileName).fileName()`: the file-name portion after the last
path separator (POSIX separators modelled). -/
def strippedName (fullFileName : String) : String :=
  ((fullFileName.splitOn "/").getLast?).getD ""

/-- Observable state of a `QRecentFiles` object together with the
process-wide `QSettings` value it reads and writes.  `windowTitle = none`
models Python `None`; `displayedTitle` mirrors the effect of the
`setWindowTitle` calls; `recentFileList` is the persisted
`settings.value('recentFileList')`. -/
structure QRecentFilesState where
  windowTitle : Option String
  maxRecentFiles : Nat
  currentFile : Option String
  recentFileList : List String
  displayedTitle : Option String
  deriving DecidableEq, Repr

/-- Python truthiness of the `self.windowTitle` attribute (`None` and the
empty string are falsy). -/
def titleTruthy : Option String → Bool
  | none => false
  | some t => t ≠ ""

/-- Result of `QRecentFiles.setCurrentFile`: the new state and whether the
persisted list was rewritten and the open windows' menus refreshed. -/
structure SetCurrentFileResult where
  state : QRecentFilesState
  menusRefreshed : Bool
  deriving DecidableEq, Repr

/-- Embedding of the persisted-list update in `QRecentFiles.setCurrentFile`
(PyQt5RecentFiles.py lines 113-128).  `files.remove(fileName)` removes the
first occurrence and its `ValueError` (when absent) is swallowed, which is
exactly `List.erase`; `files.insert(0, fileName)` prepends; the truncation
`del files[self.MAX_RECENT_FILES:]` keeps the first `MAX_RECENT_FILES`
entries — note it uses the class constant `MAX_RECENT_FILES` (= 10), not the
per-instance `self.maxRecentFiles` capacity set in `__init__`. -/
def setCurrentFileProceed (s : QRecentFilesState) (fileName : String) : SetCurrentFileResult :=
  let files := s.recentFileList.erase fileName
  let files := fileName :: files
  let files := files.take MAX_RECENT_FILES
  { state := { s with recentFileList := files }, menusRefreshed := true }

/-- Embedding of the branching around the window-title update at the top of
`QRecentFiles.setCurrentFile` (lines 103-111): the early `return` is taken
exactly when a window title is configured and the file name is falsy; the
list update `setCurrentFileProceed` runs otherwise. -/
def setCurrentFile (s : QRecentFilesState) (fileName : String) : SetCurrentFileResult :=
  if titleTruthy s.windowTitle then
    if fileName ≠ "" then
      setCurrentFileProceed
        { s with
          currentFile := some fileName
          displayedTitle := some (strippedName fileName ++ " - " ++ s.windowTitle.getD "") }
        fileName
    else
      { state := { s with
          currentFile := some fileName
          displayedTitle := s.windowTitle }
        menusRefreshed := false }
  else
    setCurrentFileProceed { s with currentFile := some fileName } fileName

/-! ## PyQt5WidgetDataConnectors.py -/

/-- Observable state of a `QCheckBox`. -/
structure PyQCheckBox where
  checked : Bool
  deriving DecidableEq, Repr

/-- Observable state of a (non-editable) `QComboBox`: its item texts and the
current index (`-1` when nothing is selected). -/
structure PyQComboBox where
  items : List String
  currentIndex : Int
  deriving DecidableEq, Repr

/-- Embedding of `QComboBox.findText(text)` with the default match flags
(`MatchExactly | MatchCaseSensitive`): index of the first exactly matching
item, `-1` when absent. -/
def comboFindText (w : PyQComboBox) (t : String) : Int :=
  match w.items.indexOf? t with
  | some i => (i : Int)
  | none => -1

/-- Embedding of `QComboBox.currentText()`: the text of the current item, or
the empty string when no item is current. -/
def comboCurrentText (w : PyQComboBox) : String :=
  if h : 0 ≤ w.currentIndex ∧ w.currentIndex.toNat < w.items.length then
    w.items.get ⟨w.currentIndex.toNat, h.2⟩
  else ""

/-- Embedding of `QComboBox.setCurrentIndex(i)`: select the item at a valid
index; an invalid index clears the selection. -/
def comboSetCurrentIndex (w : PyQComboBox) (i : Int) : PyQComboBox :=
  if 0 ≤ i ∧ i < (w.items.length : Int) then { w with currentIndex := i }
  else { w with currentIndex := -1 }

/-- Embedding of `QComboBox.setCurrentText(t)` for a non-editable combo box:
select the first matching item, no-op when no item matches. -/
def comboSetCurrentText (w : PyQComboBox) (t : String) : PyQComboBox :=
  let found := comboFindText w t
  if found ≠ -1 then comboSetCurrentIndex w found else w

namespace QCheckBoxDataConnector

/-- Embedding of `QCheckBoxDataConnector._transferToWidget`
(PyQt5WidgetDataConnectors.py lines 116-121): `setChecked(getattr(...))`.
The bound data object is represented by the value of the bound boolean
attribute. -/
def transferToWidget (attr : Bool) (w : PyQCheckBox) : PyQCheckBox :=
  { w with checked := attr }

/-- Embedding of `QCheckBoxDataConnector._transferFromWidget`
(PyQt5WidgetDataConnectors.py lines 123-127): `setattr(..., isChecked())`;
the result is the new value of the bound attribute. -/
def transferFromWidget (w : PyQCheckBox) : Bool :=
  w.checked

end QCheckBoxDataConnector

namespace QComboBoxDataConnector

/-- Embedding of `QComboBoxDataConnector._transferToWidget`
(PyQt5WidgetDataConnectors.py lines 148-160): look the attribute text up with
`findText`; when absent, fall back to selecting index 0 if the combo box is
non-empty; when present, `setCurrentText` selects it. -/
def transferToWidget (attr : String) (w : PyQComboBox) : PyQComboBox :=
  let found := comboFindText w attr
  if found = -1 then
    if w.items.length ≠ 0 then comboSetCurrentIndex w 0 else w
  else
    comboSetCurrentText w attr

/-- Embedding of `QComboBoxDataConnector._transferFromWidget`
(PyQt5WidgetDataConnectors.py lines 162-166): the bound attribute is set to
`currentText()`; the result is the new value of the bound attribute. -/
def transferFromWidget (w : PyQComboBox) : String :=
  comboCurrentText w

end QComboBoxDataConnector

/-- One registry entry of `WidgetDataConnectors`: its group bitmask and an
identifier standing for the connector object (so that the order and identity
of the per-connector transfer invocations can be observed). -/
structure ConnectorRec where
  groupFlags : Nat
  connectorId : Nat
  deriving DecidableEq, Repr

/-- Embedding of `AbstractWidgetMutableDataConnector.isGroupMember`
(PyQt5WidgetDataConnectors.py lines 76-80): the source returns the bitwise
AND itself (an `int`), which the caller uses for its truthiness. -/
def isGroupMember (c : ConnectorRec) (groupFlags : Nat) : Nat :=
  groupFlags &&& c.groupFlags

/-- Embedding of `WidgetDataConnectors.transferFromWidgets`
(PyQt5WidgetDataConnectors.py lines 392-402), reified as the sequence of
connectors whose `_transferFromWidget` method the loop invokes, in loop
order. -/
def transferFromWidgets : List ConnectorRec → Nat → List ConnectorRec
  | [], _ => []
  | connector :: rest, groupFlags =>
    if groupFlags ≠ 0 then
      if isGroupMember connector groupFlags ≠ 0 then
        connector :: transferFromWidgets rest groupFlags
      else
        transferFromWidgets rest groupFlags
    else
      connector :: transferFromWidgets rest groupFlags

/-- Embedding of `WidgetDataConnectors.transferToWidgets`
(PyQt5WidgetDataConnectors.py lines 404-414), reified as the sequence of
connectors whose `_transferToWidget` method the loop invokes, in loop
order. -/
def transferToWidgets : List ConnectorRec → Nat → List ConnectorRec
  | [], _ => []
  | connector :: rest, groupFlags =>
    if groupFlags ≠ 0 then
      if isGroupMember connector groupFlags ≠ 0 then
        connector :: transferToWidgets rest groupFlags
      else
        transferToWidgets rest groupFlags
    else
      connector :: transferToWidgets rest groupFlags

/-! ## PyQt5Validators.py -/

/-- Embedding of `QWidget_Abstract_Validator.FLAG_CLEAR_HIGHLIGHT_BEFORE_VALIDATING`
(PyQt5Validators.py line 41). -/
def FLAG_CLEAR_HIGHLIGHT_BEFORE_VALIDATING : Nat := 0x0001

/-- Embedding of `QWidget_Abstract_Validator.FLAG_HIGHLIGHT_WIDGETS_WITH_ERRORS`
(PyQt5Validators.py line 42). -/
def FLAG_HIGHLIGHT_WIDGETS_WITH_ERRORS : Nat := 0x0002

/-- Embedding of `QWidget_Abstract_Validator.FLAG_SHOW_ERROR_MESSAGE`
(PyQt5Validators.py line 43). -/
def FLAG_SHOW_ERROR_MESSAGE : Nat := 0x0004

/-- Embedding of `QWidget_Abstract_Validator.FLAG_DISABLED_WIDGET_ALWAYS_VALID`
(PyQt5Validators.py line 44). -/
def FLAG_DISABLED_WIDGET_ALWAYS_VALID : Nat := 0x0008

/-- Embedding of the module constant `ERROR_BACKGROUND_STYLE`
(PyQt5Validators.py line 31). -/
def ERROR_BACKGROUND_STYLE : String :=
  ":enabled \x7b color: Black; background-color: Coral \x7d :disabled \x7b color: Black; background-color: Coral \x7d"

/-- Observable state of the wrapped control (a `QLineEdit` for the validators
embedded here): enabled flag, text content, and current style sheet. -/
structure WidgetState where
  enabled : Bool
  text : String
  styleSheet : String
  deriving DecidableEq, Repr

/-- State of a `QWidget_Abstract_Validator` together with its wrapped
control.  In the source `self._preExistingStyle` is either the `int` `0`
(sentinel for "not highlighted", modelled as `none`) or the style-sheet
string cached by `setHighlight` (modelled as `some`). -/
structure ValidatorState where
  flags : Nat
  preExistingStyle : Option String
  widget : WidgetState
  deriving DecidableEq, Repr

/-- Embedding of `QWidget_Abstract_Validator.clearHighlight`
(PyQt5Validators.py lines 69-77): when a pre-error style is cached, restore
it and reset the cache to the `0` sentinel. -/
def clearHighlight (v : ValidatorState) : ValidatorState :=
  match v.preExistingStyle with
  | some style =>
    { v with widget := { v.widget with styleSheet := style }, preExistingStyle := none }
  | none => v

/-- Embedding of `QWidget_Abstract_Validator.setHighlight`
(PyQt5Validators.py lines 115-123): cache the current style the first time,
then set the error background style. -/
def setHighlight (v : ValidatorState) : ValidatorState :=
  let v :=
    if v.preExistingStyle = none then
      { v with preExistingStyle := some v.widget.styleSheet }
    else v
  { v with widget := { v.widget with styleSheet := ERROR_BACKGROUND_STYLE } }

/-- Embedding of `QWidget_Abstract_Validator.addFlags`
(PyQt5Validators.py lines 57-61): `self._flags |= flags`. -/
def addFlags (v : ValidatorState) (flags : Nat) : ValidatorState :=
  { v with flags := v.flags ||| flags }

/-- Embedding of `QWidget_Abstract_Validator.removeFlags`
(PyQt5Validators.py lines 63-67): the source executes `self._flags ^= flags`
(bitwise XOR). -/
def removeFlags (v : ValidatorState) (flags : Nat) : ValidatorState :=
  { v with flags := v.flags ^^^ flags }

/-- Result of one `isValid()` call: the returned boolean, the validator/widget
state afterwards, whether the modal `QMessageBox.critical` error dialog was
shown, and whether `setHighlight` was invoked. -/
structure IsValidResult where
  valid : Bool
  state : ValidatorState
  messageShown : Bool
  didHighlight : Bool
  deriving DecidableEq, Repr

/-- Shared prologue of every `isValid` override in PyQt5Validators.py (for
instance lines 303-304): clear the highlight first when
`FLAG_CLEAR_HIGHLIGHT_BEFORE_VALIDATING` is set. -/
def validatorPrologue (v : ValidatorState) : ValidatorState :=
  if v.flags &&& FLAG_CLEAR_HIGHLIGHT_BEFORE_VALIDATING ≠ 0 then clearHighlight v
  else v

/-- Shared `return True` exit of every `isValid` override: no visual change,
no message. -/
def validatorPass (v : ValidatorState) : IsValidResult :=
  { valid := true, state := v, messageShown := false, didHighlight := false }

/-- Shared failure epilogue of every `isValid` override (for instance
PyQt5Validators.py lines 314-320): highlight when
`FLAG_HIGHLIGHT_WIDGETS_WITH_ERRORS` is set, show the modal
`QMessageBox.critical` when `FLAG_SHOW_ERROR_MESSAGE` is set, return
`False`. -/
def validatorFail (v : ValidatorState) : IsValidResult :=
  if v.flags &&& FLAG_HIGHLIGHT_WIDGETS_WITH_ERRORS ≠ 0 then
    { valid := false, state := setHighlight v,
      messageShown := decide ((setHighlight v).flags &&& FLAG_SHOW_ERROR_MESSAGE ≠ 0),
      didHighlight := true }
  else
    { valid := false, state := v,
      messageShown := decide (v.flags &&& FLAG_SHOW_ERROR_MESSAGE ≠ 0),
      didHighlight := false }

/-- Body of `QLineEdit_NotBlank_Validator.isValid` after the prologue
(PyQt5Validators.py lines 306-320): valid when the disabled-widget rule
applies or the text is non-blank. -/
def QLineEdit_NotBlank_Validator.check (v : ValidatorState) : IsValidResult :=
  if v.flags &&& FLAG_DISABLED_WIDGET_ALWAYS_VALID ≠ 0 ∧ v.widget.enabled = false then
    validatorPass v
  else if v.widget.text ≠ "" then
    validatorPass v
  else
    validatorFail v

/-- Embedding of `QLineEdit_NotBlank_Validator.isValid`
(PyQt5Validators.py lines 293-320). -/
def QLineEdit_NotBlank_Validator.isValid (v : ValidatorState) : IsValidResult :=
  QLineEdit_NotBlank_Validator.check (validatorPrologue v)

/-- Embedding of `pathlib.Path(s).parts` for POSIX paths as they occur here:
empty and `'.'` components are dropped, a leading separator contributes the
root part `"/"`. -/
def pyPathParts (s : String) : List String :=
  let comps := (s.splitOn "/").filter (fun c => c ≠ "" ∧ c ≠ ".")
  if s.startsWith "/" then "/" :: comps else comps

/-- Embedding of `pathlib.Path(s).name`: the final component, or the empty
string for the root / the empty path. -/
def pyPathName (s : String) : String :=
  match (pyPathParts s).getLast? with
  | some p => if p = "/" then "" else p
  | none => ""

/-- Body of `QLineEdit_ExecutableExists_Validator.isValid` after the prologue
(PyQt5Validators.py lines 177-196).  The two file-system queries the method
makes — `pathlib.Path(...).is_file()` and `QStandardPaths.findExecutable`
(which returns the empty string when the name does not resolve) — are passed
as explicit oracle parameters, since they read external state. -/
def QLineEdit_ExecutableExists_Validator.check
    (is_file : String → Bool) (findExecutable : String → String)
    (v : ValidatorState) : IsValidResult :=
  if v.flags &&& FLAG_DISABLED_WIDGET_ALWAYS_VALID ≠ 0 ∧ v.widget.enabled = false then
    validatorPass v
  else if is_file v.widget.text then
    validatorPass v
  else if (pyPathParts v.widget.text).length = 1 ∧
      findExecutable (pyPathName v.widget.text) ≠ "" then
    validatorPass v
  else
    validatorFail v

/-- Embedding of `QLineEdit_ExecutableExists_Validator.isValid`
(PyQt5Validators.py lines 163-196), composed from the shared prologue and its
per-validator body `QLineEdit_ExecutableExists_Validator.check`. -/
def QLineEdit_ExecutableExists_Validator.isValid
    (is_file : String → Bool) (findExecutable : String → String)
    (v : ValidatorState) : IsValidResult :=
  QLineEdit_ExecutableExists_Validator.check is_file findExecutable
    (validatorPrologue v)

/-! ## Helper lemmas -/

theorem clearHighlight_flags (v : ValidatorState) : (clearHighlight v).flags = v.flags := by
  cases h : v.preExistingStyle <;> simp [clearHighlight, h]

theorem clearHighlight_enabled (v : ValidatorState) :
    (clearHighlight v).widget.enabled = v.widget.enabled := by
  cases h : v.preExistingStyle <;> simp [clearHighlight, h]

theorem clearHighlight_text (v : ValidatorState) :
    (clearHighlight v).widget.text = v.widget.text := by
  cases h : v.preExistingStyle <;> simp [clearHighlight, h]

theorem setHighlight_flags (v : ValidatorState) : (setHighlight v).flags = v.flags := by
  simp only [setHighlight]
  split <;> simp

theorem setHighlight_enabled (v : ValidatorState) :
    (setHighlight v).widget.enabled = v.widget.enabled := by
  simp only [setHighlight]
  split <;> simp

theorem setHighlight_text (v : ValidatorState) :
    (setHighlight v).widget.text = v.widget.text := by
  simp only [setHighlight]
  split <;> simp

theorem validatorPrologue_flags (v : ValidatorState) :
    (validatorPrologue v).flags = v.flags := by
  unfold validatorPrologue
  split
  · exact clearHighlight_flags v
  · rfl

theorem validatorPrologue_enabled (v : ValidatorState) :
    (validatorPrologue v).widget.enabled = v.widget.enabled := by
  unfold validatorPrologue
  split
  · exact clearHighlight_enabled v
  · rfl

theorem validatorPrologue_text (v : ValidatorState) :
    (validatorPrologue v).widget.text = v.widget.text := by
  unfold validatorPrologue
  split
  · exact clearHighlight_text v
  · rfl

theorem notBlank_check_frame (u : ValidatorState) :
    (QLineEdit_NotBlank_Validator.check u).state.widget.text = u.widget.text ∧
    (QLineEdit_NotBlank_Validator.check u).state.widget.enabled = u.widget.enabled ∧
    (QLineEdit_NotBlank_Validator.check u).state.flags = u.flags := by
  unfold QLineEdit_NotBlank_Validator.check validatorPass validatorFail
  split
  · exact ⟨rfl, rfl, rfl⟩
  · split
    · exact ⟨rfl, rfl, rfl⟩
    · split
      · exact ⟨setHighlight_text u, setHighlight_enabled u, setHighlight_flags u⟩
      · exact ⟨rfl, rfl, rfl⟩

theorem executableExists_check_frame (is_file : String → Bool)
    (findExecutable : String → String) (u : ValidatorState) :
    (QLineEdit_ExecutableExists_Validator.check is_file findExecutable u).state.widget.text
      = u.widget.text ∧
    (QLineEdit_ExecutableExists_Validator.check is_file findExecutable u).state.widget.enabled
      = u.widget.enabled ∧
    (QLineEdit_ExecutableExists_Validator.check is_file findExecutable u).state.flags
      = u.flags := by
  unfold QLineEdit_ExecutableExists_Validator.check validatorPass validatorFail
  split
  · exact ⟨rfl, rfl, rfl⟩
  · split
    · exact ⟨rfl, rfl, rfl⟩
    · split
      · exact ⟨rfl, rfl, rfl⟩
      · split
        · exact ⟨setHighlight_text u, setHighlight_enabled u, setHighlight_flags u⟩
        · exact ⟨rfl, rfl, rfl⟩

theorem foldl_push_filter (l : List Char) (acc : String) :
    l.foldl
      (fun acc c =>
        if BAD_FILENAME_CHARACTERS.data.contains c then acc else acc.push c) acc =
    String.mk
      (acc.data ++ l.filter (fun c => !(BAD_FILENAME_CHARACTERS.data.contains c))) := by
  induction l generalizing acc with
  | nil => simp
  | cons c t ih =>
    simp only [List.foldl_cons, List.filter_cons]
    by_cases h : c ∈ BAD_FILENAME_CHARACTERS.data
    · simpa [h] using ih acc
    · simpa [h, String.push, List.append_assoc] using ih (acc.push c)

theorem setCurrentFile_list (s : QRecentFilesState) (fileName : String)
    (h : titleTruthy s.windowTitle = false ∨ fileName ≠ "") :
    (setCurrentFile s fileName).state.recentFileList =
      (fileName :: s.recentFileList.erase fileName).take MAX_RECENT_FILES := by
  unfold setCurrentFile setCurrentFileProceed
  cases ht : titleTruthy s.windowTitle with
  | false => rw [if_neg (by simp [ht])]
  | true =>
    have h2 : fileName ≠ "" := by
      rcases h with h | h
      · rw [ht] at h; exact absurd h (by simp)
      · exact h
    rw [if_pos (by simp [ht]), if_pos h2]

theorem setCurrentFile_windowTitle (s : QRecentFilesState) (fileName : String) :
    (setCurrentFile s fileName).state.windowTitle = s.windowTitle := by
  unfold setCurrentFile setCurrentFileProceed
  split
  · split <;> rfl
  · rfl

theorem get_zero_eq_headI {α : Type} [Inhabited α] (l : List α) (h : 0 < l.length) :
    l.get ⟨0, h⟩ = l.headI := by
  cases l with
  | nil => simp at h
  | cons a t => rfl

theorem comboFindText_of_mem (w : PyQComboBox) (t : String) (h : t ∈ w.items) :
    comboFindText w t = (w.items.indexOf t : Int) := by
  unfold comboFindText
  have hlen : w.items.indexOf t < w.items.length := List.indexOf_lt_length.mpr h
  have heq := List.indexOf_eq_indexOf? t w.items
  cases hio : w.items.indexOf? t with
  | none =>
    rw [hio] at heq
    simp only at heq
    omega
  | some i =>
    rw [hio] at heq
    simp only at heq
    simp [heq]

theorem comboFindText_of_not_mem (w : PyQComboBox) (t : String) (h : t ∉ w.items) :
    comboFindText w t = -1 := by
  unfold comboFindText
  have hio : w.items.indexOf? t = none := by
    rw [List.indexOf?_eq_none_iff]
    intro x hx
    simp only [beq_iff_eq]
    intro he
    exact h (he ▸ hx)
  rw [hio]

theorem digitChar_isDigit : ∀ m < 10, (Nat.digitChar m).isDigit = true := by decide

theorem digitChar_val : ∀ m < 10, (Nat.digitChar m).toNat - 48 = m := by decide

theorem toDigitsCore_append (fuel : Nat) :
    ∀ (n : Nat) (ds : List Char),
      Nat.toDigitsCore 10 fuel n ds = Nat.toDigitsCore 10 fuel n [] ++ ds := by
  induction fuel with
  | zero => intro n ds; rfl
  | succ f ih =>
    intro n ds
    simp only [Nat.toDigitsCore]
    by_cases h : n / 10 = 0
    · simp [h]
    · simp only [h, if_false]
      rw [ih (n / 10) (Nat.digitChar (n % 10) :: ds), ih (n / 10) [Nat.digitChar (n % 10)]]
      simp

theorem toDigitsCore_fuel (n : Nat) : ∀ (f1 f2 : Nat) (ds : List Char), n < f1 → n < f2 →
    Nat.toDigitsCore 10 f1 n ds = Nat.toDigitsCore 10 f2 n ds := by
  induction n using Nat.strong_induction_on with
  | _ n ih =>
    intro f1 f2 ds h1 h2
    match f1, f2 with
    | g1 + 1, g2 + 1 =>
      simp only [Nat.toDigitsCore]
      by_cases h : n / 10 = 0
      · simp [h]
      · simp only [h, if_false]
        have hdl : n / 10 < n := Nat.div_lt_self (by omega) (by omega)
        exact ih (n / 10) hdl g1 g2 _ (by omega) (by omega)

theorem toDigits_eq_of_lt (n : Nat) (h : n < 10) :
    Nat.toDigits 10 n = [Nat.digitChar n] := by
  unfold Nat.toDigits
  simp only [Nat.toDigitsCore]
  rw [if_pos (Nat.div_eq_of_lt h), Nat.mod_eq_of_lt h]

theorem toDigits_eq_of_ge (n : Nat) (h : 10 ≤ n) :
    Nat.toDigits 10 n = Nat.toDigits 10 (n / 10) ++ [Nat.digitChar (n % 10)] := by
  have h0 : n / 10 ≠ 0 := by
    have : 1 ≤ n / 10 := (Nat.le_div_iff_mul_le (by omega)).mpr (by omega)
    omega
  have hdl : n / 10 < n := Nat.div_lt_self (by omega) (by omega)
  calc Nat.toDigits 10 n
      = Nat.toDigitsCore 10 n (n / 10) [Nat.digitChar (n % 10)] := by
        unfold Nat.toDigits
        simp only [Nat.toDigitsCore]
        rw [if_neg h0]
    _ = Nat.toDigitsCore 10 n (n / 10) [] ++ [Nat.digitChar (n % 10)] :=
        toDigitsCore_append n (n / 10) _
    _ = Nat.toDigitsCore 10 (n / 10 + 1) (n / 10) [] ++ [Nat.digitChar (n % 10)] := by
        rw [toDigitsCore_fuel (n / 10) n (n / 10 + 1) [] hdl (Nat.lt_succ_self _)]
    _ = Nat.toDigits 10 (n / 10) ++ [Nat.digitChar (n % 10)] := rfl

theorem toDigits_all_digit (n : Nat) : ∀ c ∈ Nat.toDigits 10 n, c.isDigit = true := by
  induction n using Nat.strong_induction_on with
  | _ n ih =>
    by_cases h : n < 10
    · rw [toDigits_eq_of_lt n h]
      intro c hc
      simp only [List.mem_singleton] at hc
      exact hc ▸ digitChar_isDigit n h
    · rw [toDigits_eq_of_ge n (by omega)]
      intro c hc
      rcases List.mem_append.mp hc with h1 | h1
      · exact ih (n / 10) (Nat.div_lt_self (by omega) (by omega)) c h1
      · simp only [List.mem_singleton] at h1
        exact h1 ▸ digitChar_isDigit (n % 10) (Nat.mod_lt _ (by omega))

theorem pyDigitsToNat_toDigits (n : Nat) : pyDigitsToNat (Nat.toDigits 10 n) = n := by
  induction n using Nat.strong_induction_on with
  | _ n ih =>
    by_cases h : n < 10
    · rw [toDigits_eq_of_lt n h]
      have hv := digitChar_val n h
      simp [pyDigitsToNat, hv]
    · rw [toDigits_eq_of_ge n (by omega)]
      have hA := ih (n / 10) (Nat.div_lt_self (by omega) (by omega))
      unfold pyDigitsToNat at hA ⊢
      rw [List.foldl_append, hA]
      simp only [List.foldl]
      rw [digitChar_val (n % 10) (Nat.mod_lt _ (by omega))]
      omega

theorem toDigits_ne_nil (n : Nat) : Nat.toDigits 10 n ≠ [] := by
  by_cases h : n < 10
  · rw [toDigits_eq_of_lt n h]; simp
  · rw [toDigits_eq_of_ge n (by omega)]; simp

theorem toString_nat_data (n : Nat) : (toString n).data = Nat.toDigits 10 n := rfl

theorem pyIntOfFloat_toString_nat (n : Nat) : pyIntOfFloat (toString n).data = some n := by
  rw [toString_nat_data]
  unfold pyIntOfFloat
  rw [if_pos ⟨toDigits_ne_nil n, List.all_eq_true.mpr (toDigits_all_digit n)⟩,
    pyDigitsToNat_toDigits]

theorem not_mem_toString_nat (c : Char) (hc : c.isDigit = false) (n : Nat) :
    c ∉ (toString n).data := by
  rw [toString_nat_data]
  intro hmem
  simp [toDigits_all_digit n c hmem] at hc

theorem isPrefixOf_append_self (p l : List Char) :
    List.isPrefixOf p (p ++ l) = true := by
  induction p with
  | nil => simp [List.isPrefixOf]
  | cons a as ih => simp [List.isPrefixOf, ih]

theorem pyReplaceAux_not_head (ph : Char) (pt rep : List Char) :
    ∀ (fuel : Nat) (l : List Char), ph ∉ l →
      pyReplaceAux fuel l (ph :: pt) rep = l := by
  intro fuel
  induction fuel with
  | zero => intro l _; rfl
  | succ f ih =>
    intro l hl
    cases l with
    | nil => rfl
    | cons c rest =>
      have hne : ph ≠ c := fun h => hl (h ▸ List.mem_cons_self c rest)
      have hcond : ¬((ph :: pt) ≠ [] ∧
          List.isPrefixOf (ph :: pt) (c :: rest) = true) := by
        rintro ⟨-, hpre⟩
        simp [List.isPrefixOf] at hpre
        exact hne hpre.1
      simp only [pyReplaceAux]
      rw [if_neg hcond, ih rest (fun hm => hl (List.mem_cons_of_mem _ hm))]

theorem pyReplaceAux_skip (ph : Char) (pt rep : List Char) :
    ∀ (l1 : List Char) (fuel : Nat) (l2 : List Char), ph ∉ l1 →
      pyReplaceAux (l1.length + fuel) (l1 ++ l2) (ph :: pt) rep =
        l1 ++ pyReplaceAux fuel l2 (ph :: pt) rep := by
  intro l1
  induction l1 with
  | nil => intro fuel l2 _; simp
  | cons c l1' ih =>
    intro fuel l2 hn
    have hne : ph ≠ c := fun h => hn (h ▸ List.mem_cons_self c l1')
    have hlen : (c :: l1').length + fuel = (l1'.length + fuel) + 1 := by
      simp
      omega
    have hcond : ¬((ph :: pt) ≠ [] ∧
        List.isPrefixOf (ph :: pt) (c :: (l1' ++ l2)) = true) := by
      rintro ⟨-, hpre⟩
      simp [List.isPrefixOf] at hpre
      exact hne hpre.1
    rw [hlen]
    simp only [List.cons_append, pyReplaceAux, List.append_eq]
    rw [if_neg hcond, ih fuel l2 (fun hm => hn (List.mem_cons_of_mem _ hm))]

theorem pyReplaceAux_match (p rep : List Char) (hp : p ≠ []) (fuel : Nat)
    (l : List Char) :
    pyReplaceAux (fuel + 1) (p ++ l) p rep = rep ++ pyReplaceAux fuel l p rep := by
  obtain ⟨ph, pt, rfl⟩ := List.exists_cons_of_ne_nil hp
  simp only [List.cons_append, pyReplaceAux, List.append_eq]
  rw [if_pos ⟨by simp, by simp⟩]
  have hdrop : List.drop (ph :: pt).length (ph :: (pt ++ l)) = l := by
    simp
  rw [hdrop]

theorem pyReplace_decompose (l1 pt l2 rep : List Char) (ph : Char)
    (h1 : ph ∉ l1) (h2 : ph ∉ l2) :
    pyReplace ⟨l1 ++ (ph :: pt) ++ l2⟩ ⟨ph :: pt⟩ ⟨rep⟩ = ⟨l1 ++ rep ++ l2⟩ := by
  unfold pyReplace
  congr 1
  show pyReplaceAux (l1 ++ (ph :: pt) ++ l2).length (l1 ++ (ph :: pt) ++ l2)
      (ph :: pt) rep = l1 ++ rep ++ l2
  have hlen : (l1 ++ (ph :: pt) ++ l2).length =
      l1.length + ((pt.length + l2.length) + 1) := by
    simp
  rw [hlen, List.append_assoc,
    pyReplaceAux_skip ph pt rep l1 ((pt.length + l2.length) + 1) ((ph :: pt) ++ l2) h1,
    pyReplaceAux_match (ph :: pt) rep (by simp) (pt.length + l2.length) l2,
    pyReplaceAux_not_head ph pt rep (pt.length + l2.length) l2 h2]
  simp [List.append_assoc]

theorem pyIntOfFloat_pyPad2 : ∀ n < 100, pyIntOfFloat (pyPad2 n).data = some n := by
  decide

theorem colon_not_mem_pyPad2 : ∀ n < 100, ':' ∉ (pyPad2 n).data := by
  decide

theorem intercalate_colon_three (a b c : List Char) :
    [':'].intercalate [a, b, c] = a ++ ':' :: (b ++ ':' :: c) := by
  simp [List.intercalate, List.intersperse]

theorem intercalate_str_three (a b c : String) :
    String.intercalate ":" [a, b, c] = a ++ ":" ++ b ++ ":" ++ c :=
  rfl

theorem pyStrTimedelta_data_zero (s : Nat) :
    (pyStrTimedelta ⟨0, s⟩).data =
      [':'].intercalate [(toString (s / 3600)).data, (pyPad2 (s % 3600 / 60)).data,
        (pyPad2 (s % 60)).data] := by
  rw [intercalate_colon_three]
  show (toString (s / 3600) ++ ":" ++ pyPad2 (s % 3600 / 60) ++ ":"
      ++ pyPad2 (s % 60)).data = _
  have hc : (":" : String).data = [':'] := rfl
  simp [String.data_append, hc]

theorem space_not_mem_pyPad2 : ∀ n < 100, ' ' ∉ (pyPad2 n).data := by decide

theorem intercalate_colon_four (a b c d : List Char) :
    [':'].intercalate [a, b, c, d] = a ++ ':' :: (b ++ ':' :: (c ++ ':' :: d)) := by
  simp [List.intercalate, List.intersperse]

theorem intercalate_str_four (a b c d : String) :
    String.intercalate ":" [a, b, c, d] = a ++ ":" ++ b ++ ":" ++ c ++ ":" ++ d :=
  rfl

theorem space_not_mem_base (s : Nat) (h2 : s % 3600 / 60 < 100) (h3 : s % 60 < 100) :
    ' ' ∉ (pyStrTimedelta ⟨0, s⟩).data := by
  rw [pyStrTimedelta_data_zero, intercalate_colon_three]
  intro hmem
  simp only [List.mem_append, List.mem_cons] at hmem
  rcases hmem with h | h | h | h | h
  · exact not_mem_toString_nat ' ' (by decide) _ h
  · exact absurd h (by decide)
  · exact space_not_mem_pyPad2 _ h2 h
  · exact absurd h (by decide)
  · exact space_not_mem_pyPad2 _ h3 h

theorem timedeltaOut_ge_two_data (d s : Nat) (hd : 2 ≤ d)
    (h2 : s % 3600 / 60 < 100) (h3 : s % 60 < 100) :
    (timedeltaOut ⟨d, s⟩ true).data =
      [':'].intercalate [(toString d).data, (toString (s / 3600)).data,
        (pyPad2 (s % 3600 / 60)).data, (pyPad2 (s % 60)).data] := by
  have h0 : timedeltaOut ⟨d, s⟩ true =
      pyReplace (pyStrTimedelta ⟨d, s⟩) " days, " ":" := by
    unfold timedeltaOut
    split
    · rfl
    · rename_i h
      exact absurd (show (0 : Nat) < d by omega) h
  have hb : pyStrTimedelta ⟨d, s⟩ = toString d ++ " days, " ++ pyTdBase s := by
    show (if d = 0 then pyTdBase s
      else if d = 1 then toString d ++ " day, " ++ pyTdBase s
      else toString d ++ " days, " ++ pyTdBase s) = _
    rw [if_neg (by omega : ¬d = 0), if_neg (by omega : ¬d = 1)]
  have hstr : pyStrTimedelta ⟨d, s⟩ =
      ⟨(toString d).data ++ (' ' :: ['d', 'a', 'y', 's', ',', ' '])
        ++ (pyStrTimedelta ⟨0, s⟩).data⟩ := by
    rw [hb]
    apply String.ext
    rfl
  rw [h0, hstr, show (" days, " : String) = ⟨' ' :: ['d', 'a', 'y', 's', ',', ' ']⟩ from rfl,
    show (":" : String) = ⟨[':']⟩ from rfl,
    pyReplace_decompose (toString d).data ['d', 'a', 'y', 's', ',', ' ']
      (pyStrTimedelta ⟨0, s⟩).data [':'] ' '
      (not_mem_toString_nat ' ' (by decide) d) (space_not_mem_base s h2 h3)]
  show (toString d).data ++ [':'] ++ (pyStrTimedelta ⟨0, s⟩).data = _
  rw [pyStrTimedelta_data_zero, intercalate_colon_three, intercalate_colon_four]
  simp [List.append_assoc]

/-! ## Claim theorems -/

/-- C10: for every validator state and every flag mask `f`, `removeFlags f`
XORs `f` into the current flags rather than clearing it: a flag of `f` that
was not set before the call is set afterwards, and calling `removeFlags f`
twice in a row restores the original flags. -/
theorem c10_removeFlags_is_xor (v : ValidatorState) (f : Nat) :
    removeFlags (removeFlags v f) f = v ∧
    (∀ i, f.testBit i = true → v.flags.testBit i = false →
      ((removeFlags v f).flags).testBit i = true) := by
  constructor
  · simp [removeFlags, Nat.xor_assoc]
  · intro i hf hv
    simp [removeFlags, Nat.testBit_xor, hf, hv]

/-- Witness for C10: with flags `5 = 0b101` and mask `3 = 0b011`, a double
`removeFlags` restores the state, and bit 1 (clear before the call, set in
the mask) is set after one call. -/
theorem c10_removeFlags_is_xor_witness :
    removeFlags (removeFlags ⟨5, none, ⟨true, "", ""⟩⟩ 3) 3 =
      (⟨5, none, ⟨true, "", ""⟩⟩ : ValidatorState) ∧
    ((removeFlags ⟨5, none, ⟨true, "", ""⟩⟩ 3).flags).testBit 1 = true :=
  ⟨(c10_removeFlags_is_xor ⟨5, none, ⟨true, "", ""⟩⟩ 3).1,
   (c10_removeFlags_is_xor ⟨5, none, ⟨true, "", ""⟩⟩ 3).2 1 (by decide) (by decide)⟩

/-- C6: both bulk transfer operations invoke the per-binding transfer exactly
for the bindings whose group bitmask has a non-empty bitwise intersection
with a non-zero filter, in registry (insertion) order, and for every binding
in insertion order when the filter is zero. -/
theorem c6_bulk_transfer_group_filter (cs : List ConnectorRec) (g : Nat) :
    transferFromWidgets cs g =
      (if g = 0 then cs else cs.filter (fun c => g &&& c.groupFlags != 0)) ∧
    transferToWidgets cs g =
      (if g = 0 then cs else cs.filter (fun c => g &&& c.groupFlags != 0)) := by
  induction cs with
  | nil => simp [transferFromWidgets, transferToWidgets]
  | cons c rest ih =>
    by_cases hg : g = 0
    · subst hg
      simp [transferFromWidgets, transferToWidgets] at ih ⊢
      exact ih
    · by_cases hm : g &&& c.groupFlags ≠ 0 <;>
        simp_all [transferFromWidgets, transferToWidgets, isGroupMember,
          List.filter_cons]

/-- C8: a validator carrying the `FLAG_DISABLED_WIDGET_ALWAYS_VALID` flag
whose wrapped control is disabled reports valid regardless of the control's
text, shows no error message and does not highlight the control (shown for
the not-blank line-edit validator cited by the claim). -/
theorem c8_disabled_widget_always_valid (v : ValidatorState)
    (hflag : v.flags &&& FLAG_DISABLED_WIDGET_ALWAYS_VALID ≠ 0)
    (hdis : v.widget.enabled = false) :
    (QLineEdit_NotBlank_Validator.isValid v).valid = true ∧
    (QLineEdit_NotBlank_Validator.isValid v).messageShown = false ∧
    (QLineEdit_NotBlank_Validator.isValid v).didHighlight = false := by
  unfold QLineEdit_NotBlank_Validator.isValid QLineEdit_NotBlank_Validator.check
  rw [if_pos ⟨by rw [validatorPrologue_flags]; exact hflag,
    by rw [validatorPrologue_enabled]; exact hdis⟩]
  exact ⟨rfl, rfl, rfl⟩

/-- Witness for C8: a disabled, blank control under the default flags
(all four set, `= 15`) validates as true with no message and no highlight. -/
theorem c8_disabled_widget_always_valid_witness :
    (QLineEdit_NotBlank_Validator.isValid ⟨15, none, ⟨false, "", ""⟩⟩).valid = true ∧
    (QLineEdit_NotBlank_Validator.isValid ⟨15, none, ⟨false, "", ""⟩⟩).messageShown = false ∧
    (QLineEdit_NotBlank_Validator.isValid ⟨15, none, ⟨false, "", ""⟩⟩).didHighlight = false :=
  c8_disabled_widget_always_valid ⟨15, none, ⟨false, "", ""⟩⟩ (by decide) (by decide)

/-- C9: `isValid()` never modifies the control's value, its enabled state, or
the validator's flags — the only state it may touch is the visual style (and
the cached pre-error style), plus optionally showing the modal message
(shown for the executable-exists validator cited by the claim and for the
not-blank validator, over every file-system oracle). -/
theorem c9_isValid_no_data_mutation (is_file : String → Bool)
    (findExecutable : String → String) (v : ValidatorState) :
    ((QLineEdit_ExecutableExists_Validator.isValid is_file findExecutable v).state.widget.text
        = v.widget.text ∧
     (QLineEdit_ExecutableExists_Validator.isValid is_file findExecutable v).state.widget.enabled
        = v.widget.enabled ∧
     (QLineEdit_ExecutableExists_Validator.isValid is_file findExecutable v).state.flags
        = v.flags) ∧
    ((QLineEdit_NotBlank_Validator.isValid v).state.widget.text = v.widget.text ∧
     (QLineEdit_NotBlank_Validator.isValid v).state.widget.enabled = v.widget.enabled ∧
     (QLineEdit_NotBlank_Validator.isValid v).state.flags = v.flags) := by
  constructor
  · have h1 := executableExists_check_frame is_file findExecutable (validatorPrologue v)
    exact ⟨h1.1.trans (validatorPrologue_text v),
      h1.2.1.trans (validatorPrologue_enabled v),
      h1.2.2.trans (validatorPrologue_flags v)⟩
  · have h1 := notBlank_check_frame (validatorPrologue v)
    exact ⟨h1.1.trans (validatorPrologue_text v),
      h1.2.1.trans (validatorPrologue_enabled v),
      h1.2.2.trans (validatorPrologue_flags v)⟩

/-- C1: invoking delete on a list widget holding exactly one item leaves the
items and the selection unchanged and emits no `listChanged` signal — but no
modal error dialog is shown either: the source refers to the unimported name
`QMessageBox`, so the attempt raises `NameError` instead (see the doc comment
of `itemDelete`). -/
theorem c1_delete_sole_item {α : Type} (s : ListWidgetState α)
    (h : s.items.length = 1) :
    itemDelete s =
      { state := s, emittedListChanged := false, messageShown := false,
        exn := some PyExn.nameError } := by
  unfold itemDelete
  rw [if_pos h]

/-- Witness for C1: deleting from a concrete one-item list. -/
theorem c1_delete_sole_item_witness :
    itemDelete (⟨["a"], 0⟩ : ListWidgetState String) =
      { state := ⟨["a"], 0⟩, emittedListChanged := false, messageShown := false,
        exn := some PyExn.nameError } :=
  c1_delete_sole_item ⟨["a"], 0⟩ (by decide)

/-- C5: after recomputation the button enabled-state satisfies: copy and
delete are enabled only when a selection exists (delete additionally requires
more than one item); top and up are enabled exactly when a selection exists
with index above 0; down and bottom exactly when a selection exists with
index below count - 1; and with an empty list or no selection all six are
disabled.  The hypothesis `currentRow < count` is the Qt invariant that the
current row is a valid row or -1. -/
theorem c5_enableButtons_spec (count : Nat) (currentRow : Int)
    (hrow : currentRow < (count : Int)) :
    ((enableButtons count currentRow).copyItemEnabled = true →
      0 ≤ currentRow ∧ 0 < count) ∧
    ((enableButtons count currentRow).deleteItemEnabled = true →
      0 ≤ currentRow ∧ 1 < count) ∧
    ((enableButtons count currentRow).itemTopEnabled = true ↔ 0 < currentRow) ∧
    ((enableButtons count currentRow).itemUpEnabled = true ↔ 0 < currentRow) ∧
    ((enableButtons count currentRow).itemDownEnabled = true ↔
      0 ≤ currentRow ∧ currentRow + 1 < (count : Int)) ∧
    ((enableButtons count currentRow).itemBottomEnabled = true ↔
      0 ≤ currentRow ∧ currentRow + 1 < (count : Int)) ∧
    ((count = 0 ∨ currentRow < 0) →
      enableButtons count currentRow = ⟨false, false, false, false, false, false⟩) := by
  unfold enableButtons
  by_cases h : count = 0 ∨ currentRow < 0
  · rw [if_pos h]
    refine ⟨by simp, by simp, ?_, ?_, ?_, ?_, fun _ => rfl⟩ <;> (simp; omega)
  · rw [if_neg h]
    refine ⟨fun _ => ?_, fun hd => ?_, ?_, ?_, ?_, ?_, fun hc => absurd hc h⟩ <;>
      (simp_all; try omega)

/-- Witness for C5: a three-item list with row 1 selected enables the up/top
buttons. -/
theorem c5_enableButtons_spec_witness :
    (enableButtons 3 1).itemTopEnabled = true ↔ 0 < (1 : Int) :=
  (c5_enableButtons_spec 3 1 (by decide)).2.2.1

/-- C4 counterexample: a combo-box binding whose pre-push attribute value
`"b"` is not among the combo items `["a"]`.  The push rewrites the widget to
its first item, so the subsequent pull stores `"a"`, not the pre-push value
`"b"` — push-then-pull is not the identity for every binding and every
pre-push attribute value. -/
theorem c4_roundtrip_counterexample :
    QComboBoxDataConnector.transferFromWidget
      (QComboBoxDataConnector.transferToWidget "b" ⟨["a"], -1⟩) ≠ "b" ∧
    QComboBoxDataConnector.transferFromWidget
      (QComboBoxDataConnector.transferToWidget "b" ⟨["a"], -1⟩) = "a" := by
  decide

/-- C4 amended: push-then-pull with no intervening widget change is the
identity on the bound attribute for check-box bindings always, and for
combo-box bindings exactly when the pre-push attribute value occurs among the
combo's items; when it does not, the pulled value is the combo's first item
(non-empty combo) or the empty string (empty combo). -/
theorem c4_roundtrip_amended :
    (∀ (attr : Bool) (w : PyQCheckBox),
      QCheckBoxDataConnector.transferFromWidget
        (QCheckBoxDataConnector.transferToWidget attr w) = attr) ∧
    (∀ (attr : String) (w : PyQComboBox), attr ∈ w.items →
      QComboBoxDataConnector.transferFromWidget
        (QComboBoxDataConnector.transferToWidget attr w) = attr) ∧
    (∀ (attr : String) (w : PyQComboBox), attr ∉ w.items → w.items ≠ [] →
      QComboBoxDataConnector.transferFromWidget
        (QComboBoxDataConnector.transferToWidget attr w) = w.items.headI) ∧
    (∀ (attr : String) (w : PyQComboBox), attr ∉ w.items → w.items = [] →
      QComboBoxDataConnector.transferFromWidget
        (QComboBoxDataConnector.transferToWidget attr w) = "") := by
  refine ⟨fun attr w => rfl, ?_, ?_, ?_⟩
  · intro attr w hmem
    have hlen : w.items.indexOf attr < w.items.length := List.indexOf_lt_length.mpr hmem
    have hft := comboFindText_of_mem w attr hmem
    have hne : ((w.items.indexOf attr : Nat) : Int) ≠ -1 := by omega
    unfold QComboBoxDataConnector.transferToWidget QComboBoxDataConnector.transferFromWidget
    rw [hft, if_neg hne]
    unfold comboSetCurrentText
    rw [hft, if_pos hne]
    unfold comboSetCurrentIndex
    rw [if_pos ⟨Int.ofNat_nonneg _, by exact_mod_cast hlen⟩]
    unfold comboCurrentText
    rw [dif_pos ⟨Int.ofNat_nonneg _, by simpa using hlen⟩]
    simp only [Int.toNat_natCast]
    exact List.indexOf_get _
  · intro attr w hnm hne
    have hft := comboFindText_of_not_mem w attr hnm
    have hlen : w.items.length ≠ 0 := fun h => hne (List.length_eq_zero.mp h)
    unfold QComboBoxDataConnector.transferToWidget QComboBoxDataConnector.transferFromWidget
    rw [hft, if_pos rfl, if_pos hlen]
    unfold comboSetCurrentIndex
    rw [if_pos ⟨le_refl 0, by exact_mod_cast Nat.pos_of_ne_zero hlen⟩]
    unfold comboCurrentText
    rw [dif_pos ⟨le_refl 0, by simpa using Nat.pos_of_ne_zero hlen⟩]
    simp only [Int.toNat_zero]
    exact get_zero_eq_headI _ _
  · intro attr w hnm hempty
    have hft := comboFindText_of_not_mem w attr hnm
    unfold QComboBoxDataConnector.transferToWidget QComboBoxDataConnector.transferFromWidget
    rw [hft, if_pos rfl, if_neg (by simp [hempty])]
    unfold comboCurrentText
    rw [dif_neg (by simp [hempty])]

/-- Witness for C4 amended: round-trip identity at a concrete check-box
binding and at a concrete combo-box binding whose attribute value occurs in
the item list. -/
theorem c4_roundtrip_amended_witness :
    QCheckBoxDataConnector.transferFromWidget
      (QCheckBoxDataConnector.transferToWidget true ⟨false⟩) = true ∧
    QComboBoxDataConnector.transferFromWidget
      (QComboBoxDataConnector.transferToWidget "a" ⟨["x", "a"], -1⟩) = "a" :=
  ⟨c4_roundtrip_amended.1 true ⟨false⟩,
   c4_roundtrip_amended.2.1 "a" ⟨["x", "a"], -1⟩ (by decide)⟩

/-- C2 counterexample: a 5-second duration formats as `"00:00:05"` — the
hours field is zero-padded to two digits by the `'%02d'` applied to every
field — not as the claimed `"0:00:05"`. -/
theorem c2_duration_format_counterexample :
    TimedeltaToString ⟨0, 5⟩ true = some "00:00:05" ∧
    (some "00:00:05" : Option String) ≠ some "0:00:05" := by
  decide

/-- C2 amended: `TimedeltaToString` zero-pads every colon-separated field to
two digits, including the leading hours (or days) field: every whole-second
duration of less than one day formats as `HH:MM:SS` (so 5 seconds formats as
`"00:00:05"`); every whole-second duration with a days component of two or
more formats as `D:HH:MM:SS` with the days field zero-padded to at least two
digits (so 2 days 2 hours formats as `"02:02:00:00"`); and a duration of
1 day 2 hours is not formatted at all — the function raises `ValueError`,
because `str(timedelta)` spells the singular `' day, '` which the
`replace(' days, ', ':')` does not rewrite. -/
theorem c2_duration_format_amended : ∀ (d s : Nat), s < 86400 →
    (d = 0 → TimedeltaToString ⟨d, s⟩ true =
      some (pyPad2 (s / 3600) ++ ":" ++ pyPad2 (s % 3600 / 60) ++ ":"
        ++ pyPad2 (s % 60))) ∧
    (2 ≤ d → TimedeltaToString ⟨d, s⟩ true =
      some (pyPad2 d ++ ":" ++ pyPad2 (s / 3600) ++ ":" ++ pyPad2 (s % 3600 / 60)
        ++ ":" ++ pyPad2 (s % 60))) ∧
    TimedeltaToString ⟨1, 7200⟩ true = none := by
  intro d s hs
  have h1 : s / 3600 < 24 := Nat.div_lt_of_lt_mul (by omega)
  have h2 : s % 3600 / 60 < 60 := Nat.div_lt_of_lt_mul (Nat.mod_lt _ (by omega))
  have h3 : s % 60 < 60 := Nat.mod_lt _ (by omega)
  refine ⟨?_, ?_, by decide⟩
  · rintro rfl
    have hsplit : ((timedeltaOut ⟨0, s⟩ true).data.splitOn ':') =
        [(toString (s / 3600)).data, (pyPad2 (s % 3600 / 60)).data,
          (pyPad2 (s % 60)).data] := by
      have hout : timedeltaOut ⟨0, s⟩ true = pyStrTimedelta ⟨0, s⟩ := rfl
      rw [hout, pyStrTimedelta_data_zero]
      refine List.splitOn_intercalate _ ':' ?_ (by simp)
      intro l hl
      simp only [List.mem_cons, List.not_mem_nil, or_false] at hl
      rcases hl with rfl | rfl | rfl
      · exact not_mem_toString_nat ':' (by decide) _
      · exact colon_not_mem_pyPad2 _ (by omega)
      · exact colon_not_mem_pyPad2 _ (by omega)
    unfold TimedeltaToString
    rw [hsplit]
    have hmap : List.mapM pyIntOfFloat
        [(toString (s / 3600)).data, (pyPad2 (s % 3600 / 60)).data,
          (pyPad2 (s % 60)).data] =
        some [s / 3600, s % 3600 / 60, s % 60] := by
      rw [List.mapM_cons, List.mapM_cons, List.mapM_cons, List.mapM_nil,
        pyIntOfFloat_toString_nat, pyIntOfFloat_pyPad2 _ (by omega),
        pyIntOfFloat_pyPad2 _ (by omega)]
      rfl
    rw [hmap]
    simp [intercalate_str_three]
  · intro hd
    have hsplit4 : ((timedeltaOut ⟨d, s⟩ true).data.splitOn ':') =
        [(toString d).data, (toString (s / 3600)).data,
          (pyPad2 (s % 3600 / 60)).data, (pyPad2 (s % 60)).data] := by
      rw [timedeltaOut_ge_two_data d s hd (by omega) (by omega)]
      refine List.splitOn_intercalate _ ':' ?_ (by simp)
      intro l hl
      simp only [List.mem_cons, List.not_mem_nil, or_false] at hl
      rcases hl with rfl | rfl | rfl | rfl
      · exact not_mem_toString_nat ':' (by decide) d
      · exact not_mem_toString_nat ':' (by decide) _
      · exact colon_not_mem_pyPad2 _ (by omega)
      · exact colon_not_mem_pyPad2 _ (by omega)
    unfold TimedeltaToString
    rw [hsplit4]
    have hmap4 : List.mapM pyIntOfFloat
        [(toString d).data, (toString (s / 3600)).data,
          (pyPad2 (s % 3600 / 60)).data, (pyPad2 (s % 60)).data] =
        some [d, s / 3600, s % 3600 / 60, s % 60] := by
      rw [List.mapM_cons, List.mapM_cons, List.mapM_cons, List.mapM_cons, List.mapM_nil,
        pyIntOfFloat_toString_nat, pyIntOfFloat_toString_nat,
        pyIntOfFloat_pyPad2 _ (by omega), pyIntOfFloat_pyPad2 _ (by omega)]
      rfl
    rw [hmap4]
    simp [intercalate_str_four]

/-- Witness for C2 amended: the 5-second duration (sub-day clause) and the
2-days-2-hours duration (multi-day clause), each hypothesis discharged at the
concrete input. -/
theorem c2_duration_format_amended_witness :
    (TimedeltaToString ⟨0, 5⟩ true =
      some (pyPad2 (5 / 3600) ++ ":" ++ pyPad2 (5 % 3600 / 60) ++ ":"
        ++ pyPad2 (5 % 60))) ∧
    (TimedeltaToString ⟨2, 7200⟩ true =
      some (pyPad2 2 ++ ":" ++ pyPad2 (7200 / 3600) ++ ":" ++ pyPad2 (7200 % 3600 / 60)
        ++ ":" ++ pyPad2 (7200 % 60))) :=
  ⟨(c2_duration_format_amended 0 5 (by decide)).1 rfl,
   (c2_duration_format_amended 2 7200 (by decide)).2.1 (by decide)⟩

/-- C7 counterexample: the input `" a"` contains no denylisted character and
no character affected by Unicode normalization (so the NFKD parameter is the
identity on it), yet the sanitizer's output differs from the input: the
`filename.strip()` call also removes leading/trailing whitespace, a
transformation beyond removing denylisted characters and decomposing
accents — so the claim's "no transformation other than" part fails. -/
theorem c7_sanitizer_counterexample :
    (" a" : String).data.all
      (fun c => !(BAD_FILENAME_CHARACTERS.data.contains c)) = true ∧
    NormalizeFileName (fun s => s) " a" = "a" ∧
    (" a" : String) ≠ "a" := by
  decide

/-- C7 amended: for every normalization function and every input, the output
of `NormalizeFileName` contains no denylisted character at all (in
particular no denylisted character of the input), and the sanitizer performs
exactly these transformations: trim leading/trailing whitespace, apply the
NFKD normalization, and remove the denylisted characters — nothing else. -/
theorem c7_sanitizer_amended (nfkd : String → String) (f : String) :
    (∀ c ∈ BAD_FILENAME_CHARACTERS.data, c ∉ (NormalizeFileName nfkd f).data) ∧
    NormalizeFileName nfkd f =
      String.mk ((nfkd (pyStrip f)).data.filter
        (fun c => !(BAD_FILENAME_CHARACTERS.data.contains c))) := by
  have hfold := foldl_push_filter ((nfkd (pyStrip f)).data) ""
  have hval : NormalizeFileName nfkd f =
      String.mk ((nfkd (pyStrip f)).data.filter
        (fun c => !(BAD_FILENAME_CHARACTERS.data.contains c))) := by
    unfold NormalizeFileName
    rw [hfold]
    simp
  refine ⟨?_, hval⟩
  intro c hc hmem
  rw [hval] at hmem
  simp only [String.mk] at hmem
  have h2 := List.mem_filter.mp hmem
  simp [hc] at h2

/-- Witness for C7 amended: the denylisted character `|` is absent from the
sanitized form of `"a|b"`. -/
theorem c7_sanitizer_amended_witness :
    '|' ∉ (NormalizeFileName (fun s => s) "a|b").data :=
  (c7_sanitizer_amended (fun s => s) "a|b").1 '|' (by decide)

/-- C3 counterexample: a `QRecentFiles` instance configured with capacity 1
(`maxRecentFiles = 1`) and persisted list `["a"]`.  Recording `"b"` leaves
the persisted list `["b", "a"]` of length 2: the truncation uses the class
constant `MAX_RECENT_FILES = 10`, not the configured capacity, so the claim's
"truncates the list to the configured capacity" fails for every capacity
other than 10. -/
theorem c3_recordUse_counterexample :
    (setCurrentFile ⟨none, 1, none, ["a"], none⟩ "b").state.recentFileList = ["b", "a"] ∧
    ¬((setCurrentFile ⟨none, 1, none, ["a"], none⟩ "b").state.recentFileList.length ≤
        (⟨none, 1, none, ["a"], none⟩ : QRecentFilesState).maxRecentFiles) := by
  decide

/-- C3 amended: whenever the list update runs (no window title configured, or
a non-empty path — otherwise the method returns early), recording a path
removes it from the persisted list if present, inserts it at the front, and
truncates to the fixed class maximum `MAX_RECENT_FILES = 10` regardless of
the configured capacity.  Consequently (for a duplicate-free persisted list)
the recorded path is present exactly once, at the front; recording the same
path twice equals recording it once; and recording a new path when the list
already holds `MAX_RECENT_FILES` entries drops the oldest entry. -/
theorem c3_recordUse_amended (s : QRecentFilesState) (fileName : String)
    (h : titleTruthy s.windowTitle = false ∨ fileName ≠ "") :
    (setCurrentFile s fileName).state.recentFileList =
      (fileName :: s.recentFileList.erase fileName).take MAX_RECENT_FILES ∧
    (s.recentFileList.Nodup →
      (setCurrentFile s fileName).state.recentFileList.count fileName = 1 ∧
      (setCurrentFile s fileName).state.recentFileList.head? = some fileName) ∧
    (setCurrentFile (setCurrentFile s fileName).state fileName).state.recentFileList =
      (setCurrentFile s fileName).state.recentFileList ∧
    (fileName ∉ s.recentFileList → s.recentFileList.length = MAX_RECENT_FILES →
      (setCurrentFile s fileName).state.recentFileList =
        fileName :: s.recentFileList.take (MAX_RECENT_FILES - 1)) := by
  have hlist := setCurrentFile_list s fileName h
  have htake : (fileName :: s.recentFileList.erase fileName).take MAX_RECENT_FILES =
      fileName :: (s.recentFileList.erase fileName).take (MAX_RECENT_FILES - 1) := by
    rfl
  refine ⟨hlist, fun hnd => ⟨?_, ?_⟩, ?_, fun hnm hlen => ?_⟩
  · rw [hlist, htake]
    have h1 : s.recentFileList.count fileName ≤ 1 :=
      List.nodup_iff_count_le_one.mp hnd fileName
    have h2 : (s.recentFileList.erase fileName).count fileName = 0 := by
      rw [List.count_erase_self]
      omega
    have h3 : ((s.recentFileList.erase fileName).take (MAX_RECENT_FILES - 1)).count
        fileName = 0 :=
      Nat.le_zero.mp (h2 ▸ (List.take_sublist _ _).count_le fileName)
    simp [List.count_cons, h3]
  · rw [hlist, htake]
    rfl
  · have h2 := setCurrentFile_list (setCurrentFile s fileName).state fileName
      (by rw [setCurrentFile_windowTitle]; exact h)
    have htake2 : ∀ l : List String,
        (fileName :: l).take MAX_RECENT_FILES =
          fileName :: l.take (MAX_RECENT_FILES - 1) := fun _ => rfl
    rw [h2, hlist, htake, List.erase_cons_head, htake2, List.take_take]
    simp
  · rw [hlist, List.erase_of_not_mem hnm]
    rfl

/-- Witness for C3 amended: recording `"b"` over the singleton persisted
list `["a"]` (no window title, default capacity) leaves `"b"` once, at the
front. -/
theorem c3_recordUse_amended_witness :
    (setCurrentFile ⟨none, 10, none, ["a"], none⟩ "b").state.recentFileList.count "b" = 1 ∧
    (setCurrentFile ⟨none, 10, none, ["a"], none⟩ "b").state.recentFileList.head? =
      some "b" :=
  (c3_recordUse_amended ⟨none, 10, none, ["a"], none⟩ "b" (Or.inl rfl)).2.1 (by decide)

end QtHEP
